import Mathlib

set_option maxRecDepth 100000

/-!
Verification of the phenology signal-processing engine of the
plantBloom3 backend: a shallow embedding of the smoothing, bloom
detection, yearly aggregation, trend analysis and anomaly detection
functions, together with theorems settling the specification claims.

Modelling conventions:
* JavaScript numbers are modelled by `ℚ` (all arithmetic in the engine
  is on decimal inputs; no claim depends on float rounding).
* Calendar dates are modelled by their epoch day number (`ℤ`): the
  source stores ISO `YYYY-MM-DD` strings and only ever subtracts them
  after `new Date` conversion, dividing by 86 400 000 ms, which is
  exactly the difference of day numbers.  A date string is a non-empty
  string, hence always truthy in the source's `a && b` tests, so an
  `Option ℤ` (`none` = `null`) is a faithful model of a date-or-null.
* The percentile ranks `Math.floor(0.10*(n-1))` and
  `Math.floor(0.90*(n-1))` are modelled by the exact natural-number
  divisions `(n-1)/10` and `9*(n-1)/10`; for every series length that
  can reach this code the double-precision products round to values
  with the same floor.
* `Array.prototype.sort((a,b)=>a-b)` sorts ascending; on a list of
  numbers the sorted permutation is unique, so it is embedded as
  `List.insertionSort (· ≤ ·)`.
-/

/-- One dated sample of a vegetation-index series: the element shape
`{date, value}` consumed by `detectBloom` and `detectAnomalies`. -/
structure Sample where
  date : ℤ
  value : ℚ
  deriving DecidableEq, Repr

/-- Result record of `detectBloom`. -/
structure BloomEvent where
  onsetDate : Option ℤ
  peakDate : Option ℤ
  endDate : Option ℤ
  peakValue : Option ℚ
  durationDays : Option ℚ
  confidence : ℚ
  deriving DecidableEq, Repr

/-- Function `emptyDetection()` from the source: the neutral result returned for an
empty series. -/
def emptyDetection : BloomEvent :=
  { onsetDate := none, peakDate := none, endDate := none,
    peakValue := none, durationDays := none, confidence := 1/2 }

/-- Function `movingAverage(values, windowSize)` from the source: for each index
`i` it averages the values at the indices `j ∈ [i-half, i+half]` that
actually exist (`half = ⌊windowSize/2⌋`); the guard `j >= 0` of the
inner loop is expressed as `i ≤ j + half` on naturals. -/
def movingAverage (values : List ℚ) (windowSize : ℕ) : List ℚ :=
  let half := windowSize / 2
  (List.range values.length).map (fun i =>
    let idxs := (List.range values.length).filter
      (fun j => decide (i ≤ j + half) && decide (j ≤ i + half))
    let s := (idxs.map (fun j => values.getD j 0)).sum
    if idxs.length ≠ 0 then s / idxs.length else values.getD i 0)

/-- The ascending sort of the smoothed values (`[...values].sort((a,b)=>a-b)`). -/
def bloomSorted (values : List ℚ) : List ℚ :=
  values.insertionSort (· ≤ ·)

/-- Percentile `p10` of `detectBloom`: the sorted value at rank `⌊0.10·(n-1)⌋`. -/
def bloomP10 (values : List ℚ) : ℚ :=
  (bloomSorted values).getD ((values.length - 1) / 10) 0

/-- Percentile `p90` of `detectBloom`: the sorted value at rank `⌊0.90·(n-1)⌋`. -/
def bloomP90 (values : List ℚ) : ℚ :=
  (bloomSorted values).getD (9 * (values.length - 1) / 10) 0

/-- The adaptive threshold `p10 + 0.4*(p90-p10)` of `detectBloom`. -/
def bloomThreshold (values : List ℚ) : ℚ :=
  bloomP10 values + (2/5) * (bloomP90 values - bloomP10 values)

/-- Index `onsetIdx` of `detectBloom`: the first `i ≥ 1` with
`values[i-1] < threshold ≤ values[i]`, as an `Option` (`none` = `-1`). -/
def bloomOnsetIdx (values : List ℚ) : Option ℕ :=
  (List.range values.length).find? (fun i =>
    decide (0 < i) && decide (values.getD (i - 1) 0 < bloomThreshold values)
      && decide (bloomThreshold values ≤ values.getD i 0))

/-- Index `peakIdx` of `detectBloom`:
`values.reduce((best, v, i) => v > values[best] ? i : best, 0)`. -/
def bloomPeakIdx (values : List ℚ) : ℕ :=
  (List.range values.length).foldl
    (fun best i => if values.getD best 0 < values.getD i 0 then i else best) 0

/-- Index `endIdx` of `detectBloom`: the loop `for (i = n-2; i > peakIdx; i--)`
stops at the first `i` (descending) with `values[i+1] < threshold ≤ values[i]`
and stores `i + 1`; `none` models `-1`. -/
def bloomEndIdx (values : List ℚ) : Option ℕ :=
  ((((List.range (values.length - 1)).filter
      (fun i => decide (bloomPeakIdx values < i))).reverse).find? (fun i =>
        decide (values.getD (i + 1) 0 < bloomThreshold values)
          && decide (bloomThreshold values ≤ values.getD i 0))).map (· + 1)

/-- Field `onsetDate` of `detectBloom`: `series[onsetIdx].date` when the onset
index was found (in the running pipeline `series` and the smoothed
`values` have the same length, so the index is always in range). -/
def bloomOnsetDate (series : List Sample) (values : List ℚ) : Option ℤ :=
  (bloomOnsetIdx values).bind (fun i => (series[i]?).map Sample.date)

/-- Field `peakDate` of `detectBloom`: `series[peakIdx]?.date || null` (a date
string is non-empty, hence truthy, so only a missing element gives null). -/
def bloomPeakDate (series : List Sample) (values : List ℚ) : Option ℤ :=
  (series[bloomPeakIdx values]?).map Sample.date

/-- Field `endDate` of `detectBloom`: `series[endIdx].date` when the end index
was found. -/
def bloomEndDate (series : List Sample) (values : List ℚ) : Option ℤ :=
  (bloomEndIdx values).bind (fun i => (series[i]?).map Sample.date)

/-- The non-empty branch of `detectBloom`. -/
def detectBloomCore (series : List Sample) (values : List ℚ) : BloomEvent :=
  { onsetDate := bloomOnsetDate series values,
    peakDate := bloomPeakDate series values,
    endDate := bloomEndDate series values,
    peakValue := values[bloomPeakIdx values]?,
    durationDays :=
      match bloomOnsetDate series values, bloomEndDate series values with
      | some o, some e => some (max 0 ((e : ℚ) - (o : ℚ)))
      | _, _ => none,
    confidence :=
      max (1/2) (min (19/20)
          (1/2 + max 0 (bloomP90 values - bloomP10 values) * (4/5))) *
        (if (bloomOnsetDate series values).isSome ∧
            (bloomPeakDate series values).isSome ∧
            (bloomEndDate series values).isSome then 1 else 3/5) }

/-- Function `detectBloom(series, smoothedValues)` from the source. -/
def detectBloom (series : List Sample) (values : List ℚ) : BloomEvent :=
  if series.length = 0 then emptyDetection else detectBloomCore series values

/-- The composition used by the `/api/phenology` pipeline:
`detectBloom(series, movingAverage(series.map(d => d.value), 5))`. -/
def detectBloomPipeline (series : List Sample) : BloomEvent :=
  detectBloom series (movingAverage (series.map Sample.value) 5)

/-- Result record of `analyzeTrends` for series of length ≥ 2.  The
`confidence` field of the source is `0.85 + Math.random()*0.1` and is
omitted from the deterministic model; `magnitude` is the numeric value
of the rendered `toFixed(4)` string. -/
structure TrendResult where
  direction : String
  magnitude : ℚ
  significance : String
  deriving DecidableEq, Repr

/-- Function `calculateLinearTrend(values)` from the source, verbatim: note that
`sumY` is computed as `values.reduce((sum, val, i) => sum + val * i, 0)`,
the same expression as `sumXY`, not the sum of the values. -/
def calculateLinearTrend (values : List ℚ) : ℚ :=
  let n : ℚ := values.length
  let sumX : ℚ := (values.length * (values.length - 1) : ℕ) / 2
  let sumY : ℚ := (values.enum.map (fun p => p.2 * (p.1 : ℚ))).sum
  let sumXY : ℚ := (values.enum.map (fun p => p.2 * (p.1 : ℚ))).sum
  let sumX2 : ℚ := (values.enum.map (fun p => ((p.1 : ℚ) * p.1))).sum
  (n * sumXY - sumX * sumY) / (n * sumX2 - sumX * sumX)

/-- Rendering `Math.abs(x).toFixed(4)` as a rational: round to 4 decimal places
(`toFixed` rounds half away from zero; our arguments are non-negative,
where that agrees with `round`). -/
def toFixed4 (q : ℚ) : ℚ := (round (q * 10000) : ℤ) / 10000

/-- Function `analyzeTrends(data)` from the source on the extracted values;
`none` models the `{trend: 'Insufficient data', confidence: 0}` result
for series of length < 2. -/
def analyzeTrends (values : List ℚ) : Option TrendResult :=
  if values.length < 2 then none
  else
    let trend := calculateLinearTrend values
    some { direction := if 0 < trend then "Increasing" else "Decreasing",
           magnitude := toFixed4 |trend|,
           significance := if 1/100 < trend then "Significant" else "Not significant" }

/-- The ordinary-least-squares slope that §4.4 of the specification
prescribes (`sumY` really summing the values), stated for comparison
with `calculateLinearTrend`. -/
def olsSlopeSpec (values : List ℚ) : ℚ :=
  let n : ℚ := values.length
  let sumX : ℚ := (values.length * (values.length - 1) : ℕ) / 2
  let sumY : ℚ := values.sum
  let sumXY : ℚ := (values.enum.map (fun p => p.2 * (p.1 : ℚ))).sum
  let sumX2 : ℚ := (values.enum.map (fun p => ((p.1 : ℚ) * p.1))).sum
  (n * sumXY - sumX * sumY) / (n * sumX2 - sumX * sumX)

/-- The trend report that §4.4 of the specification prescribes for a
series of length ≥ 2, built from the ordinary-least-squares slope. -/
def analyzeTrendsSpec (values : List ℚ) : Option TrendResult :=
  if values.length < 2 then none
  else
    let slope := olsSlopeSpec values
    some { direction := if 0 < slope then "Increasing" else "Decreasing",
           magnitude := toFixed4 |slope|,
           significance := if 1/100 < |slope| then "Significant" else "Not significant" }

/-- Result record of `detectAnomalies`; the fixed `potential_causes`
string list is omitted as a constant. -/
structure AnomalyReport where
  count : ℕ
  dates : List ℤ
  severity : String
  deriving DecidableEq, Repr

/-- The population mean of `detectAnomalies`. -/
def anomalyMean (values : List ℚ) : ℚ := values.sum / values.length

/-- The population variance `Σ(v-mean)²/n` of `detectAnomalies`
(the source stores `stdDev = Math.sqrt` of this). -/
def popVariance (values : List ℚ) : ℚ :=
  ((values.map (fun v => (v - anomalyMean values) * (v - anomalyMean values))).sum)
    / values.length

/-- Function `detectAnomalies(data)` from the source.  The source filters on
`Math.abs(value - mean) > 2 * stdDev` with `stdDev = √variance`; since
both sides are non-negative this is equivalent to the square-free test
`(value - mean)² > 4 * variance` used here, which keeps the model
inside `ℚ`. -/
def detectAnomalies (data : List Sample) : AnomalyReport :=
  let values := data.map Sample.value
  let anomalies := data.filter (fun d =>
    decide (4 * popVariance values <
      (d.value - anomalyMean values) * (d.value - anomalyMean values)))
  { count := anomalies.length,
    dates := anomalies.map Sample.date,
    severity := if 0 < anomalies.length then "Moderate" else "None detected" }

/-- The `medianPeakDoy` computation of the `/api/phenology` handler:
from the per-year records' peak days-of-year (`none` for a year whose
`peak_date` is null), keep the present ones, sort ascending and take the
element at index `⌊count/2⌋`; `null` if no year has a peak.  `dayOfYear`
produces integers (`Math.floor`), on which the final `Math.round` is the
identity, so the result stays in `ℤ`. -/
def medianPeakDoy (peaks : List (Option ℤ)) : Option ℤ :=
  let doys := peaks.filterMap id
  if doys.length = 0 then none
  else some ((doys.insertionSort (· ≤ ·)).getD (doys.length / 2) 0)

/-- The year-range handling of the `/api/phenology` handler: an inverted
range is rejected with HTTP 400 before any aggregation runs; otherwise
the handler loops `for (year = sy; year <= ey; year++)` and produces one
record per year, modelled here by the list of years visited. -/
def phenologyYearRange (sy ey : ℤ) : Except String (List ℤ) :=
  if ey < sy then Except.error "end_year must be >= start_year"
  else Except.ok ((List.range (ey + 1 - sy).toNat).map (fun k => sy + (k : ℤ)))

/-- Clamp bound shared by the confidence proofs:
`Math.max(0.5, Math.min(0.95, x))` always lies in `[0.5, 0.95]`. -/
theorem clamp_half_bounds (x : ℚ) :
    1/2 ≤ max (1/2) (min (19/20) x) ∧ max (1/2) (min (19/20) x) ≤ 19/20 :=
  ⟨le_max_left _ _, max_le (by norm_num) (min_le_left _ _)⟩

/-- C1: for the value series [0,1,2,3,4,5] the code's `analyzeTrends`
reports direction Decreasing, magnitude 4.7143 and significance
"Not significant", because `calculateLinearTrend` computes `sumY` with
the `sumXY` expression `val * i`; the ordinary-least-squares analysis
prescribed by the spec yields slope 1, hence Increasing / 1.0000 /
Significant.  The claim describes the spec's intent; the code diverges
from it at this very input. -/
theorem trend_C1 :
    analyzeTrends [0,1,2,3,4,5] =
      some { direction := "Decreasing", magnitude := 47143/10000,
             significance := "Not significant" } ∧
    calculateLinearTrend [0,1,2,3,4,5] = -33/7 ∧
    analyzeTrendsSpec [0,1,2,3,4,5] =
      some { direction := "Increasing", magnitude := 1,
             significance := "Significant" } ∧
    olsSlopeSpec [0,1,2,3,4,5] = 1 := by
  refine ⟨?_, ?_, ?_, ?_⟩ <;> with_unfolding_all rfl

/-- C7: on the empty series `detectBloom` returns exactly the neutral
result, whatever smoothed values it is passed. -/
theorem bloom_C7 (smoothed : List ℚ) :
    detectBloom [] smoothed =
      { onsetDate := none, peakDate := none, endDate := none,
        peakValue := none, durationDays := none, confidence := 1/2 } := rfl

/-- C5 counterexample: an inverted year range (start 2020, end 2019) is
answered with the 400 error message, not with an empty `years` list. -/
theorem phenology_C5_cex :
    phenologyYearRange 2020 2019 = Except.error "end_year must be >= start_year" ∧
    phenologyYearRange 2020 2019 ≠ Except.ok [] := by
  exact ⟨rfl, fun h => Except.noConfusion h⟩

/-- C5 (amended): whenever `end_year < start_year` the `/api/phenology`
handler rejects the request with the 400 error
"end_year must be >= start_year" instead of aggregating anything. -/
theorem phenology_C5_amended (sy ey : ℤ) (h : ey < sy) :
    phenologyYearRange sy ey = Except.error "end_year must be >= start_year" := by
  simp [phenologyYearRange, h]

/-- C5 witness: the amended statement at the concrete range 5..3. -/
theorem phenology_C5_wit :
    phenologyYearRange 5 3 = Except.error "end_year must be >= start_year" :=
  phenology_C5_amended 5 3 (by decide)

/-- C3 counterexample: the constant pipeline series of value 5 on days
0,1,2 yields confidence 0.3, which is outside the claimed [0.5, 0.95]
(completeness 0.6 multiplies the clamped value 0.5 down to 0.3). -/
theorem bloom_C3_cex :
    (detectBloomPipeline [⟨0,5⟩,⟨1,5⟩,⟨2,5⟩]).confidence = 3/10 ∧
    ¬(1/2 ≤ (detectBloomPipeline [⟨0,5⟩,⟨1,5⟩,⟨2,5⟩]).confidence) := by
  constructor
  · with_unfolding_all rfl
  · intro h
    rw [show (detectBloomPipeline [⟨0,5⟩,⟨1,5⟩,⟨2,5⟩]).confidence = 3/10 from by
      with_unfolding_all rfl] at h
    norm_num at h

/-- C3 (amended): for every series/smoothed pair the confidence of the
returned bloom event lies in [0.3, 0.95]: the clamp keeps the base value
in [0.5, 0.95] and the completeness factor is 1 or 0.6. -/
theorem bloom_C3_amended (series : List Sample) (values : List ℚ) :
    3/10 ≤ (detectBloom series values).confidence ∧
    (detectBloom series values).confidence ≤ 19/20 := by
  rw [detectBloom]
  split
  · constructor <;> norm_num [emptyDetection]
  · obtain ⟨h1, h2⟩ := clamp_half_bounds
      (1/2 + max 0 (bloomP90 values - bloomP10 values) * (4/5))
    simp only [detectBloomCore]
    split_ifs
    · rw [mul_one]; exact ⟨by linarith, h2⟩
    · exact ⟨by nlinarith, by nlinarith⟩

/-- C4 counterexample: with dates 0,1,2,3 and smoothed values
[5,5,0,5] the onset crossing (index 3) lies after the end crossing
(index 2), so `durationDays` is the floored value 0 and not the signed
day difference end − onset = −1 that the claim asserts. -/
theorem bloom_C4_cex :
    (detectBloom [⟨0,5⟩,⟨1,5⟩,⟨2,5⟩,⟨3,5⟩] [5,5,0,5]).onsetDate = some 3 ∧
    (detectBloom [⟨0,5⟩,⟨1,5⟩,⟨2,5⟩,⟨3,5⟩] [5,5,0,5]).endDate = some 2 ∧
    (detectBloom [⟨0,5⟩,⟨1,5⟩,⟨2,5⟩,⟨3,5⟩] [5,5,0,5]).durationDays = some 0 ∧
    (detectBloom [⟨0,5⟩,⟨1,5⟩,⟨2,5⟩,⟨3,5⟩] [5,5,0,5]).durationDays ≠
      some (((2 : ℤ) : ℚ) - ((3 : ℤ) : ℚ)) := by
  refine ⟨by with_unfolding_all rfl, by with_unfolding_all rfl,
    by with_unfolding_all rfl, ?_⟩
  intro h
  rw [show (detectBloom [⟨0,5⟩,⟨1,5⟩,⟨2,5⟩,⟨3,5⟩] [5,5,0,5]).durationDays
      = some 0 from by with_unfolding_all rfl] at h
  rw [Option.some_inj] at h
  norm_num at h

/-- C4 (amended): `durationDays` is `max 0 (endDate − onsetDate)` in days
(the difference floored at 0, hence always ≥ 0) when both dates are
present, and null when either is missing. -/
theorem bloom_C4_amended (series : List Sample) (values : List ℚ) :
    ((detectBloom series values).onsetDate = none ∨
      (detectBloom series values).endDate = none →
      (detectBloom series values).durationDays = none) ∧
    ∀ o e : ℤ, (detectBloom series values).onsetDate = some o →
      (detectBloom series values).endDate = some e →
      (detectBloom series values).durationDays = some (max 0 ((e : ℚ) - (o : ℚ))) ∧
        ∀ d : ℚ, (detectBloom series values).durationDays = some d → 0 ≤ d := by
  rw [detectBloom]
  split
  · refine ⟨fun _ => rfl, fun o e ho _ => ?_⟩
    exact absurd ho (by simp [emptyDetection])
  · simp only [detectBloomCore]
    constructor
    · rintro (h | h)
      · rw [h]
      · rw [h]; cases bloomOnsetDate series values <;> rfl
    · intro o e ho he
      rw [ho, he]
      refine ⟨rfl, fun d hd => ?_⟩
      rw [Option.some_inj] at hd
      rw [← hd]
      exact le_max_left _ _

/-- C4 witness: the amended statement applied at the counterexample
input, where `max 0 (2 − 3) = 0` is indeed the returned duration. -/
theorem bloom_C4_wit :
    (detectBloom [⟨0,5⟩,⟨1,5⟩,⟨2,5⟩,⟨3,5⟩] [5,5,0,5]).durationDays =
      some (max 0 (((2 : ℤ) : ℚ) - ((3 : ℤ) : ℚ))) :=
  ((bloom_C4_amended [⟨0,5⟩,⟨1,5⟩,⟨2,5⟩,⟨3,5⟩] [5,5,0,5]).2 3 2
    (by with_unfolding_all rfl) (by with_unfolding_all rfl)).1

/-- Sum of non-negative rationals is zero only if every term is zero. -/
theorem list_sum_zero_of_nonneg {l : List ℚ} (h0 : ∀ x ∈ l, 0 ≤ x)
    (hs : l.sum = 0) : ∀ x ∈ l, x = 0 := by
  induction l with
  | nil => intro x hx; cases hx
  | cons a l ih =>
    rw [List.sum_cons] at hs
    have ha : 0 ≤ a := h0 a (List.mem_cons_self a l)
    have hl : 0 ≤ l.sum :=
      List.sum_nonneg (fun x hx => h0 x (List.mem_cons_of_mem a hx))
    have ha0 : a = 0 := by linarith
    have hs0 : l.sum = 0 := by linarith
    intro x hx
    rcases List.mem_cons.mp hx with rfl | hx
    · exact ha0
    · exact ih (fun y hy => h0 y (List.mem_cons_of_mem a hy)) hs0 x hx

/-- C9: on a non-empty series of zero population variance,
`detectAnomalies` flags nothing: count 0, no dates, severity
"None detected" — and the computation involves no division by the zero
standard deviation at all (the deviation test multiplies by it). -/
theorem anomalies_C9 (data : List Sample) (h : data ≠ [])
    (hv : popVariance (data.map Sample.value) = 0) :
    detectAnomalies data = { count := 0, dates := [], severity := "None detected" } := by
  have hn : 0 < (data.map Sample.value).length := by
    simpa [List.length_pos] using h
  have hsum : ((data.map Sample.value).map
      (fun v => (v - anomalyMean (data.map Sample.value)) *
        (v - anomalyMean (data.map Sample.value)))).sum = 0 := by
    have hnq : ((data.map Sample.value).length : ℚ) ≠ 0 := by
      exact_mod_cast Nat.pos_iff_ne_zero.mp hn
    rw [popVariance, div_eq_zero_iff] at hv
    tauto
  have hterm : ∀ d ∈ data,
      (d.value - anomalyMean (data.map Sample.value)) *
        (d.value - anomalyMean (data.map Sample.value)) = 0 := by
    intro d hd
    refine list_sum_zero_of_nonneg (fun x hx => ?_) hsum _ ?_
    · obtain ⟨v, -, rfl⟩ := List.mem_map.mp hx
      exact mul_self_nonneg _
    · exact List.mem_map.mpr ⟨d.value, List.mem_map.mpr ⟨d, hd, rfl⟩, rfl⟩
  have hfilter : data.filter (fun d =>
      decide (4 * popVariance (data.map Sample.value) <
        (d.value - anomalyMean (data.map Sample.value)) *
          (d.value - anomalyMean (data.map Sample.value)))) = [] := by
    rw [List.filter_eq_nil_iff]
    intro d hd
    rw [hterm d hd, hv]
    norm_num
  rw [detectAnomalies]
  simp only [hfilter]
  rfl

/-- C9 witness: a concrete constant two-sample series has variance 0 and
produces the empty anomaly report. -/
theorem anomalies_C9_wit :
    detectAnomalies [⟨0,5⟩,⟨1,5⟩] =
      { count := 0, dates := [], severity := "None detected" } :=
  anomalies_C9 [⟨0,5⟩,⟨1,5⟩] (by decide) (by with_unfolding_all rfl)

/-- C6: `medianPeakDoy` of the year records' peak days-of-year is null
when no year has a peak, and otherwise the element at index ⌊count/2⌋ of
(any, hence the) ascending sorted arrangement of the present peak
days-of-year — a single middle element, not an interpolated median. -/
theorem median_C6 (peaks : List (Option ℤ)) :
    ((peaks.filterMap id).length = 0 → medianPeakDoy peaks = none) ∧
    ∀ s : List ℤ, (peaks.filterMap id) ≠ [] →
      s.Perm (peaks.filterMap id) → s.Sorted (· ≤ ·) →
      medianPeakDoy peaks = some (s.getD (s.length / 2) 0) := by
  constructor
  · intro h
    rw [medianPeakDoy]
    simp only [h]
    rfl
  · intro s hne hperm hsorted
    have hs : s = (peaks.filterMap id).insertionSort (· ≤ ·) :=
      List.eq_of_perm_of_sorted
        (hperm.trans (List.perm_insertionSort (· ≤ ·) _).symm) hsorted
        (List.sorted_insertionSort (· ≤ ·) _)
    have hlen : s.length = (peaks.filterMap id).length := hperm.length_eq
    have hne' : ¬(peaks.filterMap id).length = 0 := by
      simpa [List.length_eq_zero] using hne
    simp only [medianPeakDoy, if_neg hne']
    rw [hlen, hs]

/-- C6 witness: three yearly records with peak days-of-year 100, 200,
300 give median 200 (index ⌊3/2⌋ = 1 of the sorted list). -/
theorem median_C6_wit :
    medianPeakDoy [some 100, some 200, some 300] = some 200 := by
  have := (median_C6 [some 100, some 200, some 300]).2 [100, 200, 300]
    (by decide) (by decide) (by decide)
  simpa using this

/-- On a strictly descending list, `find?` returns the element `i` that
satisfies the predicate while every larger element of the list fails it:
exactly the behaviour of the source's downward-counting `for` loops. -/
theorem find?_descending {p : ℕ → Bool} : ∀ {l : List ℕ},
    List.Pairwise (· > ·) l → ∀ {i : ℕ}, i ∈ l → p i = true →
    (∀ j ∈ l, i < j → p j = false) → l.find? p = some i := by
  intro l
  induction l with
  | nil => intro _ i hi; cases hi
  | cons a l ih =>
    intro hs i hi hp hlater
    rw [List.pairwise_cons] at hs
    by_cases hpa : p a = true
    · rw [List.find?_cons_of_pos l hpa]
      rcases List.mem_cons.mp hi with rfl | hmem
      · rfl
      · exact absurd hpa (by
          rw [hlater a (List.mem_cons_self a l) (hs.1 i hmem)]
          exact Bool.false_ne_true)
    · rw [List.find?_cons_of_neg l (by simpa using hpa)]
      rcases List.mem_cons.mp hi with rfl | hmem
      · exact absurd hp hpa
      · exact ih hs.2 hmem hp
          (fun j hj hij => hlater j (List.mem_cons_of_mem a hj) hij)

/-- C2 (amended): when the descending scan finds its crossing at `i`
(that is, `i` is the greatest index after the peak with
`smoothed[i+1] < threshold ≤ smoothed[i]`), the stored end index is
`i + 1` — the index at which the series has already dropped below the
threshold — and `endDate` is the date of sample `i + 1`, not of sample
`i` as the claim states. -/
theorem bloom_C2_amended (series : List Sample) (values : List ℚ) (i : ℕ)
    (hlen : values.length = series.length)
    (hpk : bloomPeakIdx values < i)
    (hi : i + 1 < values.length)
    (h1 : values.getD (i+1) 0 < bloomThreshold values)
    (h2 : bloomThreshold values ≤ values.getD i 0)
    (hlast : ∀ j, i < j → j + 1 < values.length →
      ¬(values.getD (j+1) 0 < bloomThreshold values ∧
        bloomThreshold values ≤ values.getD j 0)) :
    bloomEndIdx values = some (i + 1) ∧
    (detectBloom series values).endDate = some ((series.getD (i+1) ⟨0, 0⟩).date) := by
  have hsorted : List.Pairwise (· > ·)
      (((List.range (values.length - 1)).filter
        (fun k => decide (bloomPeakIdx values < k))).reverse) := by
    rw [List.pairwise_reverse]
    exact List.Pairwise.filter _ (List.pairwise_lt_range _)
  have hmem : i ∈ (((List.range (values.length - 1)).filter
      (fun k => decide (bloomPeakIdx values < k))).reverse) := by
    simp only [List.mem_reverse, List.mem_filter, List.mem_range,
      decide_eq_true_eq]
    exact ⟨by omega, hpk⟩
  have hp : (decide (values.getD (i+1) 0 < bloomThreshold values) &&
      decide (bloomThreshold values ≤ values.getD i 0)) = true := by
    rw [Bool.and_eq_true]
    exact ⟨decide_eq_true h1, decide_eq_true h2⟩
  have hlater : ∀ j ∈ (((List.range (values.length - 1)).filter
      (fun k => decide (bloomPeakIdx values < k))).reverse), i < j →
      (decide (values.getD (j+1) 0 < bloomThreshold values) &&
        decide (bloomThreshold values ≤ values.getD j 0)) = false := by
    intro j hj hij
    simp only [List.mem_reverse, List.mem_filter, List.mem_range] at hj
    rw [Bool.eq_false_iff]
    intro hcontr
    rw [Bool.and_eq_true, decide_eq_true_eq, decide_eq_true_eq] at hcontr
    exact hlast j hij (by omega) hcontr
  have hfind : ((((List.range (values.length - 1)).filter
      (fun k => decide (bloomPeakIdx values < k))).reverse).find? (fun k =>
        decide (values.getD (k + 1) 0 < bloomThreshold values)
          && decide (bloomThreshold values ≤ values.getD k 0))) = some i :=
    find?_descending hsorted hmem hp hlater
  have hend : bloomEndIdx values = some (i + 1) := by
    rw [bloomEndIdx, hfind]; rfl
  have hilen : i + 1 < series.length := hlen ▸ hi
  refine ⟨hend, ?_⟩
  rw [detectBloom, if_neg (by omega)]
  show bloomEndDate series values = _
  rw [bloomEndDate, hend, Option.some_bind, List.getElem?_eq_getElem hilen,
    Option.map_some', List.getD_eq_getElem _ _ hilen]

/-- C2 counterexample: for dates 0..10 with smoothed values
[0,0,0,0,0,10,10,10,0,0,0] (threshold 4, peak index 5) the last falling
crossing is at i = 7 (smoothed[8] < 4 ≤ smoothed[7]), yet `endDate` is
the date at index 8, the sample already below threshold — not the date
at index 7 that the claim asserts. -/
theorem bloom_C2_cex :
    (detectBloom
      [⟨0,0⟩,⟨1,0⟩,⟨2,0⟩,⟨3,0⟩,⟨4,0⟩,⟨5,10⟩,⟨6,10⟩,⟨7,10⟩,⟨8,0⟩,⟨9,0⟩,⟨10,0⟩]
      [0,0,0,0,0,10,10,10,0,0,0]).endDate = some 8 ∧
    (detectBloom
      [⟨0,0⟩,⟨1,0⟩,⟨2,0⟩,⟨3,0⟩,⟨4,0⟩,⟨5,10⟩,⟨6,10⟩,⟨7,10⟩,⟨8,0⟩,⟨9,0⟩,⟨10,0⟩]
      [0,0,0,0,0,10,10,10,0,0,0]).endDate ≠ some 7 ∧
    [(0:ℚ),0,0,0,0,10,10,10,0,0,0].getD 8 0 <
      bloomThreshold [0,0,0,0,0,10,10,10,0,0,0] ∧
    bloomThreshold [0,0,0,0,0,10,10,10,0,0,0] ≤
      [(0:ℚ),0,0,0,0,10,10,10,0,0,0].getD 7 0 ∧
    bloomPeakIdx [0,0,0,0,0,10,10,10,0,0,0] < 7 := by
  refine ⟨by with_unfolding_all rfl, ?_, by with_unfolding_all decide,
    by with_unfolding_all decide, by with_unfolding_all decide⟩
  intro h
  rw [show (detectBloom
      [⟨0,0⟩,⟨1,0⟩,⟨2,0⟩,⟨3,0⟩,⟨4,0⟩,⟨5,10⟩,⟨6,10⟩,⟨7,10⟩,⟨8,0⟩,⟨9,0⟩,⟨10,0⟩]
      [0,0,0,0,0,10,10,10,0,0,0]).endDate = some 8 from by
    with_unfolding_all rfl] at h
  rw [Option.some_inj] at h
  norm_num at h

/-- C2 witness: the amended statement applied at the concrete series of
the counterexample, with crossing index i = 7. -/
theorem bloom_C2_wit :
    bloomEndIdx [0,0,0,0,0,10,10,10,0,0,0] = some 8 ∧
    (detectBloom
      [⟨0,0⟩,⟨1,0⟩,⟨2,0⟩,⟨3,0⟩,⟨4,0⟩,⟨5,10⟩,⟨6,10⟩,⟨7,10⟩,⟨8,0⟩,⟨9,0⟩,⟨10,0⟩]
      [0,0,0,0,0,10,10,10,0,0,0]).endDate =
      some (([⟨0,0⟩,⟨1,0⟩,⟨2,0⟩,⟨3,0⟩,⟨4,0⟩,⟨5,10⟩,⟨6,10⟩,⟨7,10⟩,⟨8,0⟩,
        ⟨9,0⟩,⟨10,0⟩] : List Sample).getD 8 ⟨0, 0⟩).date :=
  bloom_C2_amended
    [⟨0,0⟩,⟨1,0⟩,⟨2,0⟩,⟨3,0⟩,⟨4,0⟩,⟨5,10⟩,⟨6,10⟩,⟨7,10⟩,⟨8,0⟩,⟨9,0⟩,⟨10,0⟩]
    [0,0,0,0,0,10,10,10,0,0,0] 7 rfl
    (by with_unfolding_all decide) (by decide)
    (by with_unfolding_all decide) (by with_unfolding_all decide)
    (by
      intro j hj hj'
      have hj11 : j + 1 < 11 := by simpa using hj'
      have hj8 : j = 8 ∨ j = 9 := by omega
      rcases hj8 with rfl | rfl
      · with_unfolding_all decide
      · with_unfolding_all decide)

/-- Smoothing preserves the length of its input. -/
theorem movingAverage_length (values : List ℚ) (w : ℕ) :
    (movingAverage values w).length = values.length := by
  simp [movingAverage]

/-- The fold computing `peakIdx` only ever holds its initial value or an
element of the traversed list. -/
theorem foldl_ite_mem (values : List ℚ) : ∀ (l : List ℕ) (b : ℕ),
    l.foldl (fun best i =>
      if values.getD best 0 < values.getD i 0 then i else best) b = b ∨
    l.foldl (fun best i =>
      if values.getD best 0 < values.getD i 0 then i else best) b ∈ l := by
  intro l
  induction l with
  | nil => intro b; exact Or.inl rfl
  | cons a l ih =>
    intro b
    rw [List.foldl_cons]
    rcases ih (if values.getD b 0 < values.getD a 0 then a else b) with h | h
    · rw [h]
      split
      · exact Or.inr (List.mem_cons_self a l)
      · exact Or.inl rfl
    · exact Or.inr (List.mem_cons_of_mem a h)

/-- The peak index of a non-empty smoothed series is a valid index. -/
theorem bloomPeakIdx_lt (values : List ℚ) (h : values ≠ []) :
    bloomPeakIdx values < values.length := by
  have hpos : 0 < values.length := List.length_pos.mpr h
  rcases foldl_ite_mem values (List.range values.length) 0 with h0 | hmem
  · rw [bloomPeakIdx, h0]; exact hpos
  · exact List.mem_range.mp hmem

/-- C10: for every non-empty input series the pipeline's bloom event has
a present `peakDate` and a present `peakValue` (the fold always yields a
valid peak index), while on the empty series both are null. -/
theorem bloom_C10 (series : List Sample) (h : series ≠ []) :
    ((detectBloomPipeline series).peakDate).isSome = true ∧
    ((detectBloomPipeline series).peakValue).isSome = true ∧
    ∀ smoothed : List ℚ, (detectBloom [] smoothed).peakDate = none ∧
      (detectBloom [] smoothed).peakValue = none := by
  have hlen : (movingAverage (series.map Sample.value) 5).length = series.length := by
    rw [movingAverage_length, List.length_map]
  have hpos : 0 < series.length := List.length_pos.mpr h
  have hne : movingAverage (series.map Sample.value) 5 ≠ [] := by
    intro hc
    rw [hc] at hlen
    simp only [List.length_nil] at hlen
    omega
  have hpk := bloomPeakIdx_lt _ hne
  rw [hlen] at hpk
  refine ⟨?_, ?_, fun smoothed => ⟨rfl, rfl⟩⟩
  · rw [detectBloomPipeline, detectBloom, if_neg (by omega)]
    simp only [detectBloomCore]
    rw [bloomPeakDate, List.getElem?_eq_getElem hpk]
    rfl
  · rw [detectBloomPipeline, detectBloom, if_neg (by omega)]
    simp only [detectBloomCore]
    rw [List.getElem?_eq_getElem (hlen ▸ hpk)]
    rfl

/-- C10 witness: the single-sample series has a present peak date and
peak value. -/
theorem bloom_C10_wit :
    ((detectBloomPipeline [⟨0,5⟩]).peakDate).isSome = true ∧
    ((detectBloomPipeline [⟨0,5⟩]).peakValue).isSome = true :=
  ⟨(bloom_C10 [⟨0,5⟩] (by decide)).1, (bloom_C10 [⟨0,5⟩] (by decide)).2.1⟩

/-- The indices surviving the window guard of `movingAverage` form the
contiguous block `[lo, min (hi+1) n)`. -/
theorem range_filter_window : ∀ (n lo hi : ℕ),
    (List.range n).filter (fun j => decide (lo ≤ j) && decide (j ≤ hi)) =
    List.range' lo (min (hi + 1) n - lo) := by
  intro n
  induction n with
  | zero => intro lo hi; simp
  | succ n ih =>
    intro lo hi
    rw [List.range_succ, List.filter_append, ih]
    by_cases h1 : lo ≤ n ∧ n ≤ hi
    · have hsing : (List.filter (fun j => decide (lo ≤ j) && decide (j ≤ hi))
          [n]) = [n] := by
        simp [h1.1, h1.2]
      rw [hsing]
      have hmin1 : min (hi + 1) n = n := by omega
      have hmin2 : min (hi + 1) (n + 1) = n + 1 := by omega
      rw [hmin1, hmin2]
      have hsucc : n + 1 - lo = (n - lo) + 1 := by omega
      rw [hsucc, List.range'_concat]
      have : lo + 1 * (n - lo) = n := by omega
      rw [this]
    · have hsing : (List.filter (fun j => decide (lo ≤ j) && decide (j ≤ hi))
          [n]) = [] := by
        rw [List.filter_eq_nil_iff]
        intro a ha
        rw [List.mem_singleton] at ha
        subst ha
        rw [Bool.and_eq_true, decide_eq_true_eq, decide_eq_true_eq]
        omega
      rw [hsing, List.append_nil]
      have : min (hi + 1) n - lo = min (hi + 1) (n + 1) - lo := by omega
      rw [this]

/-- Reading a contiguous block of indices out of a list is the
`drop`/`take` slice of that list. -/
theorem map_getD_range' (values : List ℚ) : ∀ (len lo : ℕ),
    lo + len ≤ values.length →
    (List.range' lo len).map (fun j => values.getD j 0) =
    (values.drop lo).take len := by
  intro len
  induction len with
  | zero => intro lo _; simp
  | succ len ih =>
    intro lo h
    have hlo : lo < values.length := by omega
    rw [List.range'_succ, List.map_cons, List.drop_eq_getElem_cons hlo,
      List.take_succ_cons, List.getD_eq_getElem _ _ hlo]
    rw [ih (lo + 1) (by omega)]

/-- C8 core: each output of `movingAverage` is the mean of the input
slice from `i - ⌊w/2⌋` to `min (i + ⌊w/2⌋) (n-1)` — the window clipped
to the valid index range, never padded. -/
theorem movingAverage_getD (values : List ℚ) (w i : ℕ) (hi : i < values.length) :
    (movingAverage values w).getD i 0 =
      ((values.drop (i - w/2)).take
        (min (i + w/2) (values.length - 1) + 1 - (i - w/2))).sum /
      ((values.drop (i - w/2)).take
        (min (i + w/2) (values.length - 1) + 1 - (i - w/2))).length := by
  have hmap : (movingAverage values w).getD i 0 =
      ((List.range values.length).map (fun i =>
        let idxs := (List.range values.length).filter
          (fun j => decide (i ≤ j + w/2) && decide (j ≤ i + w/2))
        let s := (idxs.map (fun j => values.getD j 0)).sum
        if idxs.length ≠ 0 then s / idxs.length else values.getD i 0)).getD i 0 := rfl
  rw [hmap, List.getD_eq_getElem _ _ (by simpa using hi), List.getElem_map,
    List.getElem_range]
  simp only
  have hpred : ∀ j ∈ List.range values.length,
      (decide (i ≤ j + w/2) && decide (j ≤ i + w/2)) =
      (decide (i - w/2 ≤ j) &&
        decide (j ≤ min (i + w/2) (values.length - 1))) := by
    intro j hj
    rw [List.mem_range] at hj
    rw [Bool.eq_iff_iff, Bool.and_eq_true, Bool.and_eq_true,
      decide_eq_true_eq, decide_eq_true_eq, decide_eq_true_eq,
      decide_eq_true_eq]
    omega
  rw [List.filter_congr hpred, range_filter_window]
  have hcount : min (min (i + w/2) (values.length - 1) + 1) values.length -
      (i - w/2) = min (i + w/2) (values.length - 1) + 1 - (i - w/2) := by
    omega
  rw [hcount,
    map_getD_range' values (min (i + w/2) (values.length - 1) + 1 - (i - w/2))
      (i - w/2) (by omega),
    List.length_range']
  have hlen0 : min (i + w/2) (values.length - 1) + 1 - (i - w/2) ≠ 0 := by
    omega
  rw [if_pos hlen0]
  have hslice : ((values.drop (i - w/2)).take
      (min (i + w/2) (values.length - 1) + 1 - (i - w/2))).length =
      min (i + w/2) (values.length - 1) + 1 - (i - w/2) := by
    rw [List.length_take, List.length_drop]
    omega
  rw [hslice]

/-- A constant series is a fixed point of `movingAverage`: every clipped
window of a constant list averages to the constant. -/
theorem movingAverage_replicate (w n : ℕ) (v : ℚ) :
    movingAverage (List.replicate n v) w = List.replicate n v := by
  apply List.ext_getElem
  · rw [movingAverage_length, List.length_replicate]
  · intro i h1 h2
    have hi : i < n := by simpa using h2
    have hG := movingAverage_getD (List.replicate n v) w i (by simpa using hi)
    rw [List.getD_eq_getElem _ _ h1] at hG
    rw [hG, List.getElem_replicate]
    have hlenrep : (List.replicate n v).length = n := List.length_replicate n v
    set len := min (i + w/2) ((List.replicate n v).length - 1) + 1 - (i - w/2)
      with hlendef
    have hslice : (List.replicate n v).drop (i - w/2) =
        List.replicate (n - (i - w/2)) v := by
      simp
    have htake : (List.replicate (n - (i - w/2)) v).take len =
        List.replicate len v := by
      rw [List.take_replicate]
      have : min len (n - (i - w/2)) = len := by
        rw [hlendef, hlenrep]
        omega
      rw [this]
    rw [hslice, htake, List.sum_replicate, List.length_replicate,
      nsmul_eq_mul]
    have hlen0 : (len : ℚ) ≠ 0 := by
      have : len ≠ 0 := by
        rw [hlendef, hlenrep]
        omega
      exact_mod_cast this
    exact mul_div_cancel_left₀ v hlen0

/-- C8: `movingAverage` with an odd window preserves the length of the
series; each output value is the arithmetic mean of the input slice
`[i-⌊w/2⌋, min (i+⌊w/2⌋) (n-1)]` (the window clipped to valid indices,
with no synthetic padding); the empty series maps to the empty series;
and a constant series of value `v` maps to itself. -/
theorem smoother_C8 (values : List ℚ) (w : ℕ) (_hw : Odd w) :
    (movingAverage values w).length = values.length ∧
    (∀ i, i < values.length →
      (movingAverage values w).getD i 0 =
        ((values.drop (i - w/2)).take
          (min (i + w/2) (values.length - 1) + 1 - (i - w/2))).sum /
        ((values.drop (i - w/2)).take
          (min (i + w/2) (values.length - 1) + 1 - (i - w/2))).length) ∧
    movingAverage ([] : List ℚ) w = [] ∧
    ∀ (n : ℕ) (v : ℚ), movingAverage (List.replicate n v) w = List.replicate n v :=
  ⟨movingAverage_length values w,
   fun i hi => movingAverage_getD values w i hi,
   rfl,
   fun n v => movingAverage_replicate w n v⟩

/-- C8 witness: a constant window-3 average of the constant series
[7,7,7] is [7,7,7] — the instance of the theorem at w = 3 (odd). -/
theorem smoother_C8_wit :
    movingAverage (List.replicate 3 (7:ℚ)) 3 = List.replicate 3 (7:ℚ) :=
  (smoother_C8 [] 3 ⟨1, by norm_num⟩).2.2.2 3 7
